import Mathlib

/-!
Shallow embedding of the `loguniform` package (file `loguniform/LogUniform.py`):
two continuous distributions, `LogUniform(a, b)` and `ModifiedLogUniform(knee, b)`,
with pdf / logpdf / cdf / ppf, plus the operations `interval` and `rvs` that the
abstract base class `dist` derives from `ppf`.  Floating-point numbers are
modelled as real numbers; `np.log` / `np.exp` as `Real.log` / `Real.exp`;
`-np.inf` (the out-of-support value of `logpdf`) by working in `EReal`;
the constructor's `assert` statements by `Option`-returning makers.
-/

namespace LogUniformSpec

/-- The `LogUniform` class: fields `a` and `b` set by `__init__`. -/
structure LogUniform where
  a : ℝ
  b : ℝ

/-- The parameter constraints checked by `LogUniform.__init__`:
`a > 0 and b > 0` and `b > a`. -/
def LogUniform.valid (d : LogUniform) : Prop :=
  0 < d.a ∧ 0 < d.b ∧ d.a < d.b

/-- `LogUniform.__init__(a, b)`: the asserts `a>0 and b>0` and `b > a` either
fail (None) or the instance is built with the given parameters stored. -/
noncomputable def mkLogUniform (a b : ℝ) : Option LogUniform :=
  if 0 < a ∧ 0 < b ∧ a < b then some ⟨a, b⟩ else none

/-- `self.q = np.log(self.b) - np.log(self.a)`, computed at construction. -/
noncomputable def LogUniform.q (d : LogUniform) : ℝ :=
  Real.log d.b - Real.log d.a

/-- `dist._support_mask(x)`: `(self.a <= x) & (x <= self.b)`. -/
def LogUniform.supportMask (d : LogUniform) (x : ℝ) : Prop :=
  d.a ≤ x ∧ x ≤ d.b

/-- `LogUniform.pdf`: `np.where(m, 1/(x*self.q), 0.)` with `m` the support mask. -/
noncomputable def LogUniform.pdf (d : LogUniform) (x : ℝ) : ℝ :=
  if d.a ≤ x ∧ x ≤ d.b then 1 / (x * d.q) else 0

/-- `LogUniform.logpdf`: `np.where(m, -np.log(x*np.log(self.q)), -np.inf)`. -/
noncomputable def LogUniform.logpdf (d : LogUniform) (x : ℝ) : EReal :=
  if d.a ≤ x ∧ x ≤ d.b then ((-Real.log (x * Real.log d.q) : ℝ) : EReal) else ⊥

/-- `LogUniform.cdf`: `np.where(m2, np.where(m1, np.log(x/self.a)/self.q, 0.), 1.)`
with `m1 : self.a <= x` and `m2 : x <= self.b` the separate support masks. -/
noncomputable def LogUniform.cdf (d : LogUniform) (x : ℝ) : ℝ :=
  if x ≤ d.b then (if d.a ≤ x then Real.log (x / d.a) / d.q else 0) else 1

/-- `LogUniform.ppf`: `np.exp(np.log(self.a) + p*(self.q))`. -/
noncomputable def LogUniform.ppf (d : LogUniform) (p : ℝ) : ℝ :=
  Real.exp (Real.log d.a + p * d.q)

/-- The `ModifiedLogUniform` class: fields `knee` and `b` set by `__init__`;
the lower bound is the class attribute `a = 0`. -/
structure ModifiedLogUniform where
  knee : ℝ
  b : ℝ

/-- The class attribute `a = 0` of `ModifiedLogUniform`. -/
def ModifiedLogUniform.a (_ : ModifiedLogUniform) : ℝ := 0

/-- The parameter constraints checked by `ModifiedLogUniform.__init__`:
`b > 0`, `knee > 0`, `b > knee`. -/
def ModifiedLogUniform.valid (e : ModifiedLogUniform) : Prop :=
  0 < e.b ∧ 0 < e.knee ∧ e.knee < e.b

/-- `ModifiedLogUniform.__init__(knee, b)`: the asserts `b > 0`, `knee > 0`,
`b > knee` either fail (None) or the instance is built with the parameters stored. -/
noncomputable def mkModifiedLogUniform (knee b : ℝ) : Option ModifiedLogUniform :=
  if 0 < b ∧ 0 < knee ∧ knee < b then some ⟨knee, b⟩ else none

/-- `self.q = np.log((self.b + self.knee) / self.knee)`, computed at construction. -/
noncomputable def ModifiedLogUniform.q (e : ModifiedLogUniform) : ℝ :=
  Real.log ((e.b + e.knee) / e.knee)

/-- `ModifiedLogUniform.pdf`: `np.where(m, 1/((x+self.knee)*self.q), 0.)`,
where the support mask uses the class attribute `a = 0`. -/
noncomputable def ModifiedLogUniform.pdf (e : ModifiedLogUniform) (x : ℝ) : ℝ :=
  if 0 ≤ x ∧ x ≤ e.b then 1 / ((x + e.knee) * e.q) else 0

/-- `ModifiedLogUniform.cdf`: with `r = self.b / self.knee`, returns
`np.log(x/self.knee + 1) / np.log(r + 1)` — no mask, no clamping. -/
noncomputable def ModifiedLogUniform.cdf (e : ModifiedLogUniform) (x : ℝ) : ℝ :=
  Real.log (x / e.knee + 1) / Real.log (e.b / e.knee + 1)

/-- `ModifiedLogUniform.ppf`: `self.knee * (-1 + np.exp(np.log(self.b/self.knee + 1)*p))`. -/
noncomputable def ModifiedLogUniform.ppf (e : ModifiedLogUniform) (p : ℝ) : ℝ :=
  e.knee * (-1 + Real.exp (Real.log (e.b / e.knee + 1) * p))

/-- `dist.interval(alpha)` (defined once in the abstract base class, in terms of
`self.ppf`): raises when `np.any((alpha > 1) | (alpha < 0))`, otherwise returns
`(self.ppf((1.0-alpha)/2), self.ppf((1.0+alpha)/2))`.  Modelled for a scalar
`alpha`, parametrised by the concrete class's `ppf`. -/
noncomputable def intervalModel (ppf : ℝ → ℝ) (alpha : ℝ) : Option (ℝ × ℝ) :=
  if 1 < alpha ∨ alpha < 0 then none
  else some (ppf ((1 - alpha) / 2), ppf ((1 + alpha) / 2))

/-- `dist.rvs(size)` (defined once in the abstract base class): draws `size`
uniform numbers in `[0,1)`, maps them through `self.ppf`, and returns
`np.asscalar(s)` (a scalar) when `size == 1`, else the array `s`.  Modelled
deterministically over the list `us` of uniform draws, parametrised by the
concrete class's `ppf`; the scalar-vs-array distinction is the sum type. -/
noncomputable def rvsModel (ppf : ℝ → ℝ) (us : List ℝ) : ℝ ⊕ List ℝ :=
  if us.length = 1 then Sum.inl ((us.map ppf).headI) else Sum.inr (us.map ppf)

/-- Claim C3: construction fails exactly when the parameter constraints are
violated — `LogUniform(a, b)` needs `a > 0`, `b > 0`, `b > a`;
`ModifiedLogUniform(knee, b)` needs `knee > 0`, `b > 0`, `b > knee` —
and otherwise succeeds, storing the given parameters. -/
theorem c3_construction (a b k c : ℝ) :
    (0 < a ∧ 0 < b ∧ a < b → mkLogUniform a b = some ⟨a, b⟩) ∧
    (¬(0 < a ∧ 0 < b ∧ a < b) → mkLogUniform a b = none) ∧
    (0 < c ∧ 0 < k ∧ k < c → mkModifiedLogUniform k c = some ⟨k, c⟩) ∧
    (¬(0 < c ∧ 0 < k ∧ k < c) → mkModifiedLogUniform k c = none) := by
  refine ⟨fun h => ?_, fun h => ?_, fun h => ?_, fun h => ?_⟩ <;>
    simp [mkLogUniform, mkModifiedLogUniform, h]

/-- Witness for C3 at concrete parameters: `LogUniform(1, 2)` succeeds with the
parameters stored, `LogUniform(2, 1)` fails; `ModifiedLogUniform(1, 3)` succeeds,
`ModifiedLogUniform(3, 1)` fails. -/
theorem c3_construction_witness :
    mkLogUniform 1 2 = some ⟨1, 2⟩ ∧ mkLogUniform 2 1 = none ∧
    mkModifiedLogUniform 1 3 = some ⟨1, 3⟩ ∧ mkModifiedLogUniform 3 1 = none :=
  ⟨(c3_construction 1 2 1 3).1 (by norm_num),
   ((c3_construction 2 1 1 3).2.1 (by norm_num)),
   ((c3_construction 1 2 1 3).2.2.1 (by norm_num)),
   ((c3_construction 1 2 3 1).2.2.2 (by norm_num))⟩

/-- Claim C1: for a valid `LogUniform(a, b)` and any `x`, `logpdf(x)` is
`-ln(x * ln(q))` (with `q = ln(b) - ln(a)`) when `a <= x <= b`, and
`-infinity` when `x < a` or `x > b`. -/
theorem c1_logpdf (d : LogUniform) (x : ℝ) (h : d.valid) :
    (d.a ≤ x → x ≤ d.b → d.logpdf x = ((-Real.log (x * Real.log d.q) : ℝ) : EReal)) ∧
    ((x < d.a ∨ d.b < x) → d.logpdf x = ⊥) := by
  constructor
  · intro h1 h2
    simp [LogUniform.logpdf, h1, h2]
  · intro hout
    rw [LogUniform.logpdf, if_neg]
    rcases hout with h1 | h2
    · exact fun hc => absurd h1 (not_lt.2 hc.1)
    · exact fun hc => absurd h2 (not_lt.2 hc.2)

/-- Witness for C1: the instance `LogUniform(1, 4)` is valid, and at `x = 2`
(inside the support) and at `x = 5` (outside) the two cases apply. -/
theorem c1_logpdf_witness :
    ({ a := 1, b := 4 } : LogUniform).valid ∧
    (((1 : ℝ) ≤ 2 → (2 : ℝ) ≤ 4 →
      ({ a := 1, b := 4 } : LogUniform).logpdf 2 =
        ((-Real.log (2 * Real.log ({ a := 1, b := 4 } : LogUniform).q) : ℝ) : EReal)) ∧
     (((2 : ℝ) < 1 ∨ (4 : ℝ) < 2) → ({ a := 1, b := 4 } : LogUniform).logpdf 2 = ⊥)) ∧
    ((5 : ℝ) < 1 ∨ (4 : ℝ) < 5 → ({ a := 1, b := 4 } : LogUniform).logpdf 5 = ⊥) :=
  have hv : ({ a := 1, b := 4 } : LogUniform).valid := by
    refine ⟨by norm_num, by norm_num, by norm_num⟩
  ⟨hv, c1_logpdf { a := 1, b := 4 } 2 hv, (c1_logpdf { a := 1, b := 4 } 5 hv).2⟩

/-- Claim C4: for a valid `LogUniform(a, b)` and any `x`, `cdf(x)` is `0` when
`x < a`, `ln(x/a) / q` when `a <= x <= b`, and `1` when `x > b` (the code's two
nested masks: outer `x <= b` selecting against the constant `1`, inner `a <= x`
selecting against the constant `0`). -/
theorem c4_cdf_cases (d : LogUniform) (x : ℝ) (h : d.valid) :
    (x < d.a → d.cdf x = 0) ∧
    (d.a ≤ x → x ≤ d.b → d.cdf x = Real.log (x / d.a) / d.q) ∧
    (d.b < x → d.cdf x = 1) := by
  obtain ⟨ha, hb, hab⟩ := h
  refine ⟨fun h1 => ?_, fun h1 h2 => ?_, fun h1 => ?_⟩
  · rw [LogUniform.cdf, if_pos (le_of_lt (lt_of_lt_of_le h1 (le_of_lt hab))),
      if_neg (not_le.2 h1)]
  · rw [LogUniform.cdf, if_pos h2, if_pos h1]
  · rw [LogUniform.cdf, if_neg (not_le.2 h1)]

/-- Witness for C4: `LogUniform(1, 4)` is valid and the three cases hold there. -/
theorem c4_cdf_cases_witness :
    ({ a := 1, b := 4 } : LogUniform).valid ∧
    (((2 : ℝ) < 1 → ({ a := 1, b := 4 } : LogUniform).cdf 2 = 0) ∧
     ((1 : ℝ) ≤ 2 → (2 : ℝ) ≤ 4 →
       ({ a := 1, b := 4 } : LogUniform).cdf 2 =
         Real.log (2 / 1) / ({ a := 1, b := 4 } : LogUniform).q) ∧
     ((4 : ℝ) < 2 → ({ a := 1, b := 4 } : LogUniform).cdf 2 = 1)) :=
  have hv : ({ a := 1, b := 4 } : LogUniform).valid := by
    refine ⟨by norm_num, by norm_num, by norm_num⟩
  ⟨hv, c4_cdf_cases { a := 1, b := 4 } 2 hv⟩

/-- Claim C5: for a valid `LogUniform(a, b)` and any `x`, `pdf(x)` is
`1 / (x * q)` when `a <= x <= b` and `0` otherwise; in particular `pdf(0) = 0`
(the out-of-support input is masked to `0`, never reaching the reciprocal). -/
theorem c5_pdf (d : LogUniform) (x : ℝ) (h : d.valid) :
    (d.a ≤ x → x ≤ d.b → d.pdf x = 1 / (x * d.q)) ∧
    ((x < d.a ∨ d.b < x) → d.pdf x = 0) ∧
    d.pdf 0 = 0 := by
  obtain ⟨ha, hb, hab⟩ := h
  refine ⟨fun h1 h2 => ?_, fun hout => ?_, ?_⟩
  · simp [LogUniform.pdf, h1, h2]
  · rw [LogUniform.pdf, if_neg]
    rcases hout with h1 | h2
    · exact fun hc => absurd h1 (not_lt.2 hc.1)
    · exact fun hc => absurd h2 (not_lt.2 hc.2)
  · rw [LogUniform.pdf, if_neg]
    exact fun hc => absurd ha (not_lt.2 hc.1)

/-- Witness for C5: on `LogUniform(1, 4)`, the value `pdf(2)` is in-support,
`pdf(5)` is masked to `0`, and `pdf(0) = 0`. -/
theorem c5_pdf_witness :
    ({ a := 1, b := 4 } : LogUniform).valid ∧
    (((1 : ℝ) ≤ 2 → (2 : ℝ) ≤ 4 →
      ({ a := 1, b := 4 } : LogUniform).pdf 2 = 1 / (2 * ({ a := 1, b := 4 } : LogUniform).q)) ∧
     (((2 : ℝ) < 1 ∨ (4 : ℝ) < 2) → ({ a := 1, b := 4 } : LogUniform).pdf 2 = 0) ∧
     ({ a := 1, b := 4 } : LogUniform).pdf 0 = 0) ∧
    (((5 : ℝ) < 1 ∨ (4 : ℝ) < 5) → ({ a := 1, b := 4 } : LogUniform).pdf 5 = 0) :=
  have hv : ({ a := 1, b := 4 } : LogUniform).valid := by
    refine ⟨by norm_num, by norm_num, by norm_num⟩
  ⟨hv, c5_pdf { a := 1, b := 4 } 2 hv, (c5_pdf { a := 1, b := 4 } 5 hv).2.1⟩

/-- For valid parameters the derived constant `q = ln(b) - ln(a)` is positive. -/
lemma LogUniform.q_pos (d : LogUniform) (h : d.valid) : 0 < d.q :=
  sub_pos.2 (Real.log_lt_log h.1 h.2.2)

/-- For valid parameters the denominator `ln(b/knee + 1)` of
`ModifiedLogUniform.cdf` is positive. -/
lemma ModifiedLogUniform.logratio_pos (e : ModifiedLogUniform) (h : e.valid) :
    0 < Real.log (e.b / e.knee + 1) :=
  Real.log_pos (by linarith [div_pos h.1 h.2.1])

/-- Claim C7: for every valid `LogUniform(a, b)`, `cdf(a) = 0`, `cdf(b) = 1`,
and `cdf` is non-decreasing on `[a, b]`. -/
theorem c7_cdf_boundary_monotone (d : LogUniform) (h : d.valid) :
    d.cdf d.a = 0 ∧ d.cdf d.b = 1 ∧
    ∀ x y, d.a ≤ x → x ≤ y → y ≤ d.b → d.cdf x ≤ d.cdf y := by
  obtain ⟨ha, hb, hab⟩ := h
  have hq : 0 < d.q := d.q_pos ⟨ha, hb, hab⟩
  refine ⟨?_, ?_, ?_⟩
  · rw [LogUniform.cdf, if_pos (le_of_lt hab), if_pos le_rfl,
      div_self (ne_of_gt ha), Real.log_one, zero_div]
  · rw [LogUniform.cdf, if_pos le_rfl, if_pos (le_of_lt hab),
      Real.log_div (ne_of_gt hb) (ne_of_gt ha)]
    exact div_self (ne_of_gt hq)
  · intro x y hax hxy hyb
    have hx : 0 < x := lt_of_lt_of_le ha hax
    rw [LogUniform.cdf, if_pos (le_trans hxy hyb), if_pos hax,
      LogUniform.cdf, if_pos hyb, if_pos (le_trans hax hxy)]
    have hlog : Real.log (x / d.a) ≤ Real.log (y / d.a) :=
      Real.log_le_log (div_pos hx ha) (div_le_div_of_nonneg_right hxy ha.le)
    exact div_le_div_of_nonneg_right hlog hq.le

/-- Witness for C7: the instance `LogUniform(1, 4)` is valid and the boundary
values and monotonicity hold there. -/
theorem c7_cdf_boundary_monotone_witness :
    ({ a := 1, b := 4 } : LogUniform).valid ∧
    (({ a := 1, b := 4 } : LogUniform).cdf 1 = 0 ∧
     ({ a := 1, b := 4 } : LogUniform).cdf 4 = 1 ∧
     ∀ x y, (1 : ℝ) ≤ x → x ≤ y → y ≤ (4 : ℝ) →
       ({ a := 1, b := 4 } : LogUniform).cdf x ≤ ({ a := 1, b := 4 } : LogUniform).cdf y) :=
  have hv : ({ a := 1, b := 4 } : LogUniform).valid := by
    refine ⟨by norm_num, by norm_num, by norm_num⟩
  ⟨hv, c7_cdf_boundary_monotone { a := 1, b := 4 } hv⟩

/-- Claim C2: for every valid `ModifiedLogUniform(knee, b)`, `cdf(x)` is the raw
formula `ln(x/knee + 1) / ln(b/knee + 1)` for every `x`, with no clamping; in
particular there are inputs below `0` where it is negative and inputs above `b`
where it exceeds `1`. -/
theorem c2_mlu_cdf_unclamped (e : ModifiedLogUniform) (h : e.valid) :
    (∀ x, e.cdf x = Real.log (x / e.knee + 1) / Real.log (e.b / e.knee + 1)) ∧
    (∃ x, x < 0 ∧ e.cdf x < 0) ∧
    (∃ x, e.b < x ∧ 1 < e.cdf x) := by
  obtain ⟨hb, hk, hkb⟩ := h
  have hL : 0 < Real.log (e.b / e.knee + 1) := e.logratio_pos ⟨hb, hk, hkb⟩
  refine ⟨fun x => rfl, ?_, ?_⟩
  · refine ⟨-e.knee / 2, by linarith, ?_⟩
    have harg : -e.knee / 2 / e.knee + 1 = 1 / 2 := by
      field_simp
      ring
    rw [ModifiedLogUniform.cdf, harg]
    exact div_neg_of_neg_of_pos (Real.log_neg (by norm_num) (by norm_num)) hL
  · refine ⟨e.b + e.knee, by linarith, ?_⟩
    have harg : (e.b + e.knee) / e.knee + 1 = e.b / e.knee + 2 := by
      field_simp
      ring
    rw [ModifiedLogUniform.cdf, harg]
    refine (one_lt_div hL).2 ?_
    exact Real.log_lt_log (by positivity) (by linarith)

/-- Witness for C2: `ModifiedLogUniform(1, 3)` is valid and its `cdf` is
everywhere the raw formula, negative somewhere below `0` and above `1`
somewhere beyond `b = 3`. -/
theorem c2_mlu_cdf_unclamped_witness :
    ({ knee := 1, b := 3 } : ModifiedLogUniform).valid ∧
    ((∀ x, ({ knee := 1, b := 3 } : ModifiedLogUniform).cdf x =
        Real.log (x / 1 + 1) / Real.log ((3 : ℝ) / 1 + 1)) ∧
     (∃ x, x < 0 ∧ ({ knee := 1, b := 3 } : ModifiedLogUniform).cdf x < 0) ∧
     (∃ x, (3 : ℝ) < x ∧ 1 < ({ knee := 1, b := 3 } : ModifiedLogUniform).cdf x)) :=
  have hv : ({ knee := 1, b := 3 } : ModifiedLogUniform).valid := by
    refine ⟨by norm_num, by norm_num, by norm_num⟩
  ⟨hv, c2_mlu_cdf_unclamped { knee := 1, b := 3 } hv⟩

/-- For a valid `LogUniform(a, b)` and `p` in `[0, 1]`, `ppf(p)` lies in `[a, b]`. -/
lemma LogUniform.ppf_mem (d : LogUniform) (h : d.valid) (p : ℝ)
    (hp0 : 0 ≤ p) (hp1 : p ≤ 1) : d.a ≤ d.ppf p ∧ d.ppf p ≤ d.b := by
  obtain ⟨ha, hb, hab⟩ := h
  have hq : 0 < d.q := d.q_pos ⟨ha, hb, hab⟩
  have hqdef : d.q = Real.log d.b - Real.log d.a := rfl
  constructor
  · calc d.a = Real.exp (Real.log d.a) := (Real.exp_log ha).symm
      _ ≤ Real.exp (Real.log d.a + p * d.q) := by
          have hpq : 0 ≤ p * d.q := mul_nonneg hp0 hq.le
          exact Real.exp_le_exp.2 (by linarith)
  · calc d.ppf p ≤ Real.exp (Real.log d.b) := by
          have hpq : p * d.q ≤ d.q := mul_le_of_le_one_left hq.le hp1
          rw [LogUniform.ppf]
          exact Real.exp_le_exp.2 (by linarith)
      _ = d.b := Real.exp_log hb

/-- For a valid `ModifiedLogUniform(knee, b)` and `p` in `[0, 1]`, `ppf(p)` lies
in `[0, b]` (the support, whose lower bound is the class attribute `a = 0`). -/
lemma ModifiedLogUniform.ppf_mem_support (e : ModifiedLogUniform) (h : e.valid) (p : ℝ)
    (hp0 : 0 ≤ p) (hp1 : p ≤ 1) : 0 ≤ e.ppf p ∧ e.ppf p ≤ e.b := by
  obtain ⟨hb, hk, hkb⟩ := h
  have hL : 0 < Real.log (e.b / e.knee + 1) := e.logratio_pos ⟨hb, hk, hkb⟩
  have hexp1 : 1 ≤ Real.exp (Real.log (e.b / e.knee + 1) * p) :=
    Real.one_le_exp (mul_nonneg hL.le hp0)
  constructor
  · rw [ModifiedLogUniform.ppf]
    exact mul_nonneg hk.le (by linarith)
  · have hexp2 : Real.exp (Real.log (e.b / e.knee + 1) * p) ≤ e.b / e.knee + 1 := by
      have h2 : Real.exp (Real.log (e.b / e.knee + 1) * p) ≤
          Real.exp (Real.log (e.b / e.knee + 1)) :=
        Real.exp_le_exp.2 (mul_le_of_le_one_right hL.le hp1)
      rwa [Real.exp_log (by positivity)] at h2
    rw [ModifiedLogUniform.ppf]
    calc e.knee * (-1 + Real.exp (Real.log (e.b / e.knee + 1) * p)) ≤
        e.knee * (e.b / e.knee) := mul_le_mul_of_nonneg_left (by linarith) hk.le
      _ = e.b := by field_simp

/-- Claim C6: for every valid instance of either distribution and every `p` in
`[0, 1]`, `cdf(ppf(p)) = p` exactly (in real arithmetic). -/
theorem c6_cdf_ppf_roundtrip (d : LogUniform) (e : ModifiedLogUniform) (p : ℝ)
    (hd : d.valid) (he : e.valid) (hp0 : 0 ≤ p) (hp1 : p ≤ 1) :
    d.cdf (d.ppf p) = p ∧ e.cdf (e.ppf p) = p := by
  constructor
  · obtain ⟨hax, hxb⟩ := d.ppf_mem hd p hp0 hp1
    have hq : 0 < d.q := d.q_pos hd
    rw [LogUniform.cdf, if_pos hxb, if_pos hax, LogUniform.ppf,
      Real.log_div (Real.exp_pos _).ne' hd.1.ne', Real.log_exp, add_sub_cancel_left]
    exact mul_div_cancel_right₀ p hq.ne'
  · have hL : 0 < Real.log (e.b / e.knee + 1) := e.logratio_pos he
    have hk : (0 : ℝ) < e.knee := he.2.1
    have harg : e.knee * (-1 + Real.exp (Real.log (e.b / e.knee + 1) * p)) / e.knee + 1 =
        Real.exp (Real.log (e.b / e.knee + 1) * p) := by
      field_simp
    rw [ModifiedLogUniform.cdf, ModifiedLogUniform.ppf, harg, Real.log_exp]
    exact mul_div_cancel_left₀ p hL.ne'

/-- Witness for C6 at `LogUniform(1, 4)`, `ModifiedLogUniform(1, 3)`, `p = 1/2`. -/
theorem c6_cdf_ppf_roundtrip_witness :
    ({ a := 1, b := 4 } : LogUniform).valid ∧
    ({ knee := 1, b := 3 } : ModifiedLogUniform).valid ∧
    (0 : ℝ) ≤ 1 / 2 ∧ (1 / 2 : ℝ) ≤ 1 ∧
    (({ a := 1, b := 4 } : LogUniform).cdf
        (({ a := 1, b := 4 } : LogUniform).ppf (1 / 2)) = 1 / 2 ∧
     ({ knee := 1, b := 3 } : ModifiedLogUniform).cdf
        (({ knee := 1, b := 3 } : ModifiedLogUniform).ppf (1 / 2)) = 1 / 2) :=
  have hv1 : ({ a := 1, b := 4 } : LogUniform).valid := by
    refine ⟨by norm_num, by norm_num, by norm_num⟩
  have hv2 : ({ knee := 1, b := 3 } : ModifiedLogUniform).valid := by
    refine ⟨by norm_num, by norm_num, by norm_num⟩
  ⟨hv1, hv2, by norm_num, by norm_num,
   c6_cdf_ppf_roundtrip { a := 1, b := 4 } { knee := 1, b := 3 } (1 / 2) hv1 hv2
     (by norm_num) (by norm_num)⟩

/-- Claim C8: for every valid instance, `interval(alpha)` fails when `alpha`
lies outside `[0, 1]`, and for `alpha` in `[0, 1]` returns the pair
`(ppf((1-alpha)/2), ppf((1+alpha)/2))`. -/
theorem c8_interval (d : LogUniform) (e : ModifiedLogUniform) (alpha : ℝ)
    (hd : d.valid) (he : e.valid) :
    ((alpha < 0 ∨ 1 < alpha) →
      intervalModel d.ppf alpha = none ∧ intervalModel e.ppf alpha = none) ∧
    (0 ≤ alpha → alpha ≤ 1 →
      intervalModel d.ppf alpha =
        some (d.ppf ((1 - alpha) / 2), d.ppf ((1 + alpha) / 2)) ∧
      intervalModel e.ppf alpha =
        some (e.ppf ((1 - alpha) / 2), e.ppf ((1 + alpha) / 2))) := by
  constructor
  · intro hout
    have hcond : 1 < alpha ∨ alpha < 0 := hout.symm
    rw [intervalModel, if_pos hcond, intervalModel, if_pos hcond]
    exact ⟨rfl, rfl⟩
  · intro h0 h1
    have hcond : ¬(1 < alpha ∨ alpha < 0) := by
      push_neg
      exact ⟨h1, h0⟩
    rw [intervalModel, if_neg hcond, intervalModel, if_neg hcond]
    exact ⟨rfl, rfl⟩

/-- Witness for C8 at `LogUniform(1, 4)`, `ModifiedLogUniform(1, 3)`, `alpha = 1/2`. -/
theorem c8_interval_witness :
    ({ a := 1, b := 4 } : LogUniform).valid ∧
    ({ knee := 1, b := 3 } : ModifiedLogUniform).valid ∧
    ((((1 : ℝ) / 2 < 0 ∨ 1 < (1 : ℝ) / 2) →
      intervalModel ({ a := 1, b := 4 } : LogUniform).ppf (1 / 2) = none ∧
      intervalModel ({ knee := 1, b := 3 } : ModifiedLogUniform).ppf (1 / 2) = none) ∧
     ((0 : ℝ) ≤ 1 / 2 → (1 : ℝ) / 2 ≤ 1 →
      intervalModel ({ a := 1, b := 4 } : LogUniform).ppf (1 / 2) =
        some (({ a := 1, b := 4 } : LogUniform).ppf ((1 - 1 / 2) / 2),
              ({ a := 1, b := 4 } : LogUniform).ppf ((1 + 1 / 2) / 2)) ∧
      intervalModel ({ knee := 1, b := 3 } : ModifiedLogUniform).ppf (1 / 2) =
        some (({ knee := 1, b := 3 } : ModifiedLogUniform).ppf ((1 - 1 / 2) / 2),
              ({ knee := 1, b := 3 } : ModifiedLogUniform).ppf ((1 + 1 / 2) / 2)))) :=
  have hv1 : ({ a := 1, b := 4 } : LogUniform).valid := by
    refine ⟨by norm_num, by norm_num, by norm_num⟩
  have hv2 : ({ knee := 1, b := 3 } : ModifiedLogUniform).valid := by
    refine ⟨by norm_num, by norm_num, by norm_num⟩
  ⟨hv1, hv2, c8_interval { a := 1, b := 4 } { knee := 1, b := 3 } (1 / 2) hv1 hv2⟩

/-- Claim C9: every value produced by `rvs` lies in the support — for every
uniform draw `u` in `[0, 1)`, `a <= ppf(u) <= b` for a valid `LogUniform` and
`0 <= ppf(u) <= b` for a valid `ModifiedLogUniform`; `rvs` with one draw
(`size == 1`) returns a scalar, and otherwise returns as many values as draws. -/
theorem c9_rvs_support (d : LogUniform) (e : ModifiedLogUniform)
    (hd : d.valid) (he : e.valid) :
    (∀ u, 0 ≤ u → u < 1 → d.a ≤ d.ppf u ∧ d.ppf u ≤ d.b) ∧
    (∀ u, 0 ≤ u → u < 1 → 0 ≤ e.ppf u ∧ e.ppf u ≤ e.b) ∧
    (∀ u : ℝ, rvsModel d.ppf [u] = Sum.inl (d.ppf u) ∧
              rvsModel e.ppf [u] = Sum.inl (e.ppf u)) ∧
    (∀ us : List ℝ, us.length ≠ 1 →
      rvsModel d.ppf us = Sum.inr (List.map d.ppf us) ∧
      (List.map d.ppf us).length = us.length) := by
  refine ⟨fun u h0 h1 => d.ppf_mem hd u h0 h1.le,
          fun u h0 h1 => e.ppf_mem_support he u h0 h1.le,
          fun u => ⟨rfl, rfl⟩,
          fun us hus => ?_⟩
  rw [rvsModel, if_neg hus]
  exact ⟨rfl, List.length_map us _⟩

/-- Witness for C9 at `LogUniform(1, 4)` and `ModifiedLogUniform(1, 3)`. -/
theorem c9_rvs_support_witness :
    ({ a := 1, b := 4 } : LogUniform).valid ∧
    ({ knee := 1, b := 3 } : ModifiedLogUniform).valid ∧
    ((∀ u, 0 ≤ u → u < 1 →
        (1 : ℝ) ≤ ({ a := 1, b := 4 } : LogUniform).ppf u ∧
        ({ a := 1, b := 4 } : LogUniform).ppf u ≤ 4) ∧
     (∀ u, 0 ≤ u → u < 1 →
        0 ≤ ({ knee := 1, b := 3 } : ModifiedLogUniform).ppf u ∧
        ({ knee := 1, b := 3 } : ModifiedLogUniform).ppf u ≤ 3) ∧
     (∀ u : ℝ, rvsModel ({ a := 1, b := 4 } : LogUniform).ppf [u] =
          Sum.inl (({ a := 1, b := 4 } : LogUniform).ppf u) ∧
        rvsModel ({ knee := 1, b := 3 } : ModifiedLogUniform).ppf [u] =
          Sum.inl (({ knee := 1, b := 3 } : ModifiedLogUniform).ppf u)) ∧
     (∀ us : List ℝ, us.length ≠ 1 →
        rvsModel ({ a := 1, b := 4 } : LogUniform).ppf us =
          Sum.inr (List.map ({ a := 1, b := 4 } : LogUniform).ppf us) ∧
        (List.map ({ a := 1, b := 4 } : LogUniform).ppf us).length = us.length)) :=
  have hv1 : ({ a := 1, b := 4 } : LogUniform).valid := by
    refine ⟨by norm_num, by norm_num, by norm_num⟩
  have hv2 : ({ knee := 1, b := 3 } : ModifiedLogUniform).valid := by
    refine ⟨by norm_num, by norm_num, by norm_num⟩
  ⟨hv1, hv2, c9_rvs_support { a := 1, b := 4 } { knee := 1, b := 3 } hv1 hv2⟩

/-- Claim C10: for a valid `LogUniform(a, b)` with `b <= e * a` (so that
`q = ln(b) - ln(a) <= 1` and hence `ln(q) <= 0`) and any `x` in the support
`[a, b]`, the argument `x * ln(q)` of the outer logarithm in `logpdf` is
non-positive — the logarithm is taken of a non-positive number, so the
in-support value of `logpdf` is not a well-defined real log-density. -/
theorem c10_logpdf_log_arg_nonpos (d : LogUniform) (x : ℝ) (h : d.valid)
    (hba : d.b ≤ Real.exp 1 * d.a) (hax : d.a ≤ x) (hxb : x ≤ d.b) :
    x * Real.log d.q ≤ 0 ∧
    d.logpdf x = ((-Real.log (x * Real.log d.q) : ℝ) : EReal) := by
  obtain ⟨ha, hb, hab⟩ := h
  have hq : 0 < d.q := d.q_pos ⟨ha, hb, hab⟩
  have hq1 : d.q ≤ 1 := by
    have h1 : Real.log d.b ≤ Real.log (Real.exp 1 * d.a) := Real.log_le_log hb hba
    rw [Real.log_mul (Real.exp_ne_zero 1) ha.ne', Real.log_exp] at h1
    have hqdef : d.q = Real.log d.b - Real.log d.a := rfl
    linarith
  have hlq : Real.log d.q ≤ 0 := Real.log_nonpos hq.le hq1
  have hx : 0 ≤ x := le_trans ha.le hax
  constructor
  · calc x * Real.log d.q ≤ x * 0 := mul_le_mul_of_nonneg_left hlq hx
      _ = 0 := mul_zero x
  · simp [LogUniform.logpdf, hax, hxb]

/-- Witness for C10: `LogUniform(1, 2)` is valid, `2 <= e * 1`, and at the
in-support point `x = 1` the outer log's argument is non-positive. -/
theorem c10_logpdf_log_arg_nonpos_witness :
    ({ a := 1, b := 2 } : LogUniform).valid ∧
    (2 : ℝ) ≤ Real.exp 1 * 1 ∧ (1 : ℝ) ≤ 1 ∧ (1 : ℝ) ≤ 2 ∧
    ((1 : ℝ) * Real.log ({ a := 1, b := 2 } : LogUniform).q ≤ 0 ∧
     ({ a := 1, b := 2 } : LogUniform).logpdf 1 =
       ((-Real.log (1 * Real.log ({ a := 1, b := 2 } : LogUniform).q) : ℝ) : EReal)) :=
  have hv : ({ a := 1, b := 2 } : LogUniform).valid := by
    refine ⟨by norm_num, by norm_num, by norm_num⟩
  have hba : (2 : ℝ) ≤ Real.exp 1 * 1 := by
    have h1 : (1 : ℝ) + 1 ≤ Real.exp 1 := Real.add_one_le_exp 1
    linarith
  ⟨hv, hba, by norm_num, by norm_num,
   c10_logpdf_log_arg_nonpos { a := 1, b := 2 } 1 hv hba (by norm_num) (by norm_num)⟩

end LogUniformSpec
